import Mathlib

/-!
Shallow embedding of the iTREDS county-healthcare scraping pipeline
(`scraper_discovery.py`, `scraper_extract.py`, `scraper_structure.py`,
`run_pipeline.py`, `scraper.py`), together with proofs of the testable
properties stated in the specification.

Python strings are modelled as Lean `String` (a sequence of Unicode code
points, matching Python semantics); Python string primitives (`in`,
`startswith`, `endswith`, `lower`, `strip`) are re-implemented on
`List Char` so that all definitions evaluate by kernel reduction.
Network traffic (`requests.get` + BeautifulSoup parsing + `extract_links`)
is modelled by an oracle `Net` mapping a URL to `none` (any fetch failure)
or `some anchors`, where each anchor is an `(href, text)` pair already
resolved by `urljoin` exactly as `extract_links` produces them.
-/

/-- Boolean test that `needle` occurs as a contiguous substring of `hay`,
the semantics of Python's `needle in hay` on strings. -/
def listContainsSub (needle : List Char) : List Char → Bool
  | [] => needle.isEmpty
  | c :: rest => needle.isPrefixOf (c :: rest) || listContainsSub needle rest

/-- Python `sub in s` for strings. -/
def pyContains (s sub : String) : Bool := listContainsSub sub.data s.data

/-- Python `s.startswith(pre)`. -/
def pyStartsWith (s pre : String) : Bool := pre.data.isPrefixOf s.data

/-- Python `s.lower()` (the repository only lowercases ASCII data). -/
def pyLower (s : String) : String := String.mk (s.data.map Char.toLower)

/-- Python `s.strip()`: remove leading and trailing whitespace. -/
def pyStrip (s : String) : String :=
  String.mk (((s.data.dropWhile Char.isWhitespace).reverse.dropWhile Char.isWhitespace).reverse)

/-! ### Link scoring (`scraper_discovery.py`, `score_link` and friends) -/

def DEPT_KEYWORDS : List String :=
  ["health department", "health services", "public health",
   "health and human services", "hhs", "hhsa", "department of public health"]

def SECTION_KEYWORDS : List String :=
  ["maternal health", "maternal child health", "mch", "mcah",
   "women\x27s health", "family health", "perinatal", "reproductive health",
   "prenatal", "postpartum"]

def PROGRAM_KEYWORDS : List String :=
  ["healthy start", "wic", "home visiting", "miechv",
   "black infant health", "first 5", "nurse-family partnership",
   "title v", "perinatal equity", "postpartum", "breastfeeding",
   "lactation", "family planning", "parents as teachers", "nfp"]

def SOCIAL_HOSTS : List String :=
  ["facebook.com", "twitter.com", "instagram.com", "youtube.com", "linkedin.com"]

/-- The inner `contains_any` of `score_link`: some keyword occurs in the
lowercased link text `t` or the lowercased href `h`. -/
def contains_any (t h : String) (words : List String) : Bool :=
  words.any (fun w => pyContains t w || pyContains h w)

/-- Keyword and path-segment contributions of `score_link` (its `value`
just before the social-media penalty is applied). -/
def link_value (href text level : String) : Int :=
  if level = "dept" then
    (if contains_any (pyLower text) (pyLower href) DEPT_KEYWORDS then 3 else 0)
    + (if pyContains (pyLower href) "/health" || pyContains (pyLower href) "/public-health"
       then 2 else 0)
  else if level = "section" then
    (if contains_any (pyLower text) (pyLower href) SECTION_KEYWORDS then 3 else 0)
    + (if ["/mch", "/mcah", "/maternal", "/perinatal", "/family-health"].any
          (fun seg => pyContains (pyLower href) seg) then 2 else 0)
  else if level = "program" then
    (if contains_any (pyLower text) (pyLower href) PROGRAM_KEYWORDS then 2 else 0)
    + (if ["/apply", "/program", "/services", "/maternal", "/perinatal"].any
          (fun seg => pyContains (pyLower href) seg) then 1 else 0)
  else 0

/-- The social-media test of `score_link`: some known social host occurs in
the lowercased href. -/
def socialPenalized (href : String) : Bool :=
  SOCIAL_HOSTS.any (fun d => pyContains (pyLower href) d)

/-- Heuristic link score (`score_link`): level-dependent keyword/path value
minus 3 when the href mentions a social-media host. -/
def score_link (href text level : String) : Int :=
  link_value href text level - (if socialPenalized href then 3 else 0)

/-! ### Domain matching (`is_same_domain`, via `urllib.parse.urlparse`) -/

/-- Scan for the first `://` separator and return what follows it.
Models `urlparse` locating the authority component of an absolute URL
(every URL reaching `is_same_domain` in this program carries a scheme). -/
def afterSchemeSep : List Char → Option (List Char)
  | [] => none
  | ':' :: '/' :: '/' :: rest => some rest
  | _ :: rest => afterSchemeSep rest

/-- Network-location (host) component of a URL, as `urlparse(url).netloc`:
the text between `://` and the next `/`, `?` or `#`. -/
def netloc (url : String) : String :=
  match afterSchemeSep url.data with
  | none => ""
  | some rest => String.mk (rest.takeWhile (fun c => !(c == '/' || c == '?' || c == '#')))

/-- Python `is_same_domain`: the candidate host equals the base host, or is
a dot-separated subdomain of it (`c.netloc.endswith("." + b.netloc)`). -/
def is_same_domain (base_url candidate_url : String) : Bool :=
  netloc candidate_url == netloc base_url
  || ("." ++ netloc base_url).data.isSuffixOf (netloc candidate_url).data

/-- Modelled from the spec: the "second-level domain" of a host is its last
two dot-separated labels (the whole host when it has fewer). Only used to
compare the spec's wording against `is_same_domain`. -/
def splitOnDot : List Char → List (List Char)
  | [] => [[]]
  | c :: cs =>
    if c == '.' then [] :: splitOnDot cs
    else
      match splitOnDot cs with
      | [] => [[c]]
      | g :: gs => (c :: g) :: gs

/-- Join character groups with a dot separator. -/
def joinDots : List (List Char) → List Char
  | [] => []
  | [g] => g
  | g :: gs => g ++ '.' :: joinDots gs

/-- Modelled from the spec: second-level domain of a host (its last two
dot-separated labels). -/
def second_level_domain (host : String) : String :=
  let labels := splitOnDot host.data
  String.mk (joinDots (labels.drop (labels.length - 2)))

/-! ### Best-link selection (`choose_best_link`) -/

/-- An anchor eligible for department/section selection: an absolute
http-prefixed href on the same domain as the base URL. -/
def eligibleAnchor (base_url : String) (p : String × String) : Bool :=
  pyStartsWith p.1 "http" && is_same_domain base_url p.1

/-- Score of an anchor pair at a navigation level. -/
@[reducible] def scoreAt (level : String) (p : String × String) : Int := score_link p.1 p.2 level

/-- Loop body of `choose_best_link`: walk the anchors keeping the href and
score of the current champion; only a strictly greater score (`sc >
best_score`) replaces it. -/
def choose_best_aux (base_url level : String) :
    List (String × String) → Option String → Int → Option String
  | [], best, _ => best
  | (href, text) :: rest, best, best_score =>
    if !(pyStartsWith href "http") then choose_best_aux base_url level rest best best_score
    else if !(is_same_domain base_url href) then choose_best_aux base_url level rest best best_score
    else if best_score < score_link href text level then
      choose_best_aux base_url level rest (some href) (score_link href text level)
    else choose_best_aux base_url level rest best best_score

/-- Python `choose_best_link`: first-seen strictly-highest-scoring eligible
anchor, starting from an empty champion with sentinel score `-999`. -/
def choose_best_link (links : List (String × String)) (base_url level : String) : Option String :=
  choose_best_aux base_url level links none (-999)

/-! ### Program-link collection (`collect_program_links`) -/

/-- One discovered candidate program link, as built by
`collect_program_links` (the `nav_path` is filled in later by
`run_discovery_for_county`). -/
structure ProgramLink where
  name : String
  url : String
  link_text : String
  nav_path : String
deriving DecidableEq, Repr

/-- Scored anchors kept by `collect_program_links`: absolute links whose
program-level score is strictly positive, tagged with that score. -/
def scored_program_links (links : List (String × String)) : List (Int × String × String) :=
  links.filterMap (fun p =>
    if !(pyStartsWith p.1 "http") then none
    else if score_link p.1 p.2 "program" ≤ 0 then none
    else some (score_link p.1 p.2 "program", p.1, p.2))

/-- Stable descending insertion by score.  Python's `list.sort(key, reverse=True)`
is a stable descending sort, and a stable sort's output is uniquely
determined by the input order and the keys, so this computes the same list. -/
def insertDesc (x : Int × String × String) :
    List (Int × String × String) → List (Int × String × String)
  | [] => [x]
  | y :: ys => if y.1 ≤ x.1 then x :: y :: ys else y :: insertDesc x ys

/-- Stable sort by strictly descending score (`scored.sort(key, reverse=True)`). -/
def sortDesc (l : List (Int × String × String)) : List (Int × String × String) :=
  l.foldr insertDesc []

/-- Build the candidate record from a kept scored anchor (Python fills
`name` and `link_text` from the anchor text and leaves `nav_path` empty). -/
def toProgramLink (x : Int × String × String) : ProgramLink :=
  { name := x.2.2, url := x.2.1, link_text := x.2.2, nav_path := "" }

/-- Deduplicate by URL preserving order and stop once `max_links` records
have been appended (Python appends first and then checks the cap, so a cap
of `0` still lets one record through, exactly as the source loop does). -/
def dedupTake : Nat → List (Int × String × String) → List String → List ProgramLink
  | _, [], _ => []
  | k, x :: rest, seen =>
    if seen.contains x.2.1 then dedupTake k rest seen
    else if k ≤ 1 then [toProgramLink x]
    else toProgramLink x :: dedupTake (k - 1) rest (x.2.1 :: seen)

/-- Pure core of `collect_program_links`, applied to the anchors of a
successfully fetched page. -/
def collect_program_links_from (links : List (String × String)) (max_links : Nat) : List ProgramLink :=
  dedupTake max_links (sortDesc (scored_program_links links)) []

/-- The network oracle: a URL either fails to fetch (`none`) or yields the
anchor list that `extract_links` would produce for the fetched page. -/
def Net : Type := String → Option (List (String × String))

/-- Python `collect_program_links`: empty on fetch failure, otherwise the
pure collection over the page's anchors. -/
def collect_program_links (W : Net) (seed_url : String) (max_links : Nat) : List ProgramLink :=
  match W seed_url with
  | none => []
  | some links => collect_program_links_from links max_links

/-- Python `find_health_dept_page`. -/
def find_health_dept_page (W : Net) (county_root_url : String) : Option String :=
  match W county_root_url with
  | none => none
  | some links => choose_best_link links county_root_url "dept"

/-- Python `find_maternal_section`. -/
def find_maternal_section (W : Net) (health_dept_url : String) : Option String :=
  match W health_dept_url with
  | none => none
  | some links => choose_best_link links health_dept_url "section"

/-- Discovery record for one county (`run_discovery_for_county`'s result
dictionary). -/
structure DiscoveryRecord where
  county_name : String
  county_url : String
  health_dept_url : String
  maternal_section_url : String
  programs : List ProgramLink
deriving DecidableEq, Repr

/-- Python `run_discovery_for_county`: three fault-tolerant steps, each
fetch failure or empty selection falling back to the previous URL. -/
def run_discovery_for_county (W : Net) (county_name county_root_url : String) : DiscoveryRecord :=
  let deptFound := find_health_dept_page W county_root_url
  let health_dept_url := deptFound.getD ""
  let dept := deptFound.getD county_root_url
  let mchFound := find_maternal_section W dept
  let maternal_section_url := mchFound.getD ""
  let mch := mchFound.getD dept
  let nav := if maternal_section_url = "" then "Main → Health Dept"
             else "Main → Health Dept → Maternal/Child"
  let programs := (collect_program_links W mch 25).map (fun p => { p with nav_path := nav })
  { county_name := county_name, county_url := county_root_url,
    health_dept_url := health_dept_url, maternal_section_url := maternal_section_url,
    programs := programs }

/-! ### Content extraction (`scraper_extract.py`) -/

def MAX_TEXT_CHARS : Nat := 20000

def TRUNC_MARKER : String := "\n\n[Content truncated...]"

/-- Truncation step of `extract_text`: cut to the character budget and
append the marker when over budget, otherwise leave the text unchanged. -/
def truncate_step (text : String) : String :=
  if MAX_TEXT_CHARS < text.length then String.mk (text.data.take MAX_TEXT_CHARS) ++ TRUNC_MARKER
  else text

/-- ASCII letter-or-digit test (`[a-zA-Z0-9]`). -/
def isAsciiAlnum (c : Char) : Bool :=
  ('a' ≤ c && c ≤ 'z') || ('A' ≤ c && c ≤ 'Z') || ('0' ≤ c && c ≤ '9')

/-- Replace each maximal run of non-alphanumeric characters by a single
dash (the regex substitution `[^a-zA-Z0-9]+ -> -`); the flag records being
inside such a run. -/
def dashNonAlnum : Bool → List Char → List Char
  | _, [] => []
  | inRun, c :: cs =>
    if isAsciiAlnum c then c :: dashNonAlnum false cs
    else if inRun then dashNonAlnum true cs
    else '-' :: dashNonAlnum true cs

/-- Collapse each run of two or more dashes to a single dash (the regex
substitution `-{2,} -> -`). -/
def collapseDash : Bool → List Char → List Char
  | _, [] => []
  | prev, c :: cs =>
    if c == '-' then (if prev then collapseDash true cs else '-' :: collapseDash true cs)
    else c :: collapseDash false cs

/-- Python `s.strip("-")`. -/
def stripDashes (l : List Char) : List Char :=
  ((l.dropWhile (fun c => c == '-')).reverse.dropWhile (fun c => c == '-')).reverse

/-- Python `slugify`: lowercase the stripped text, dash out non-alphanumeric
runs, collapse and trim dashes, defaulting to `"item"` when empty. -/
def slugify (text : String) : String :=
  let s0 := pyLower (pyStrip text)
  let s1 := dashNonAlnum false s0.data
  let s2 := collapseDash false s1
  let s3 := stripDashes s2
  if s3.isEmpty then "item" else String.mk s3

/-- Raw page record persisted by Phase 2 (`process_program_page`). -/
structure RawPageRecord where
  county : String
  page_url : String
  link_text : String
  program_name_guess : String
  nav_path : String
  scraped_at : String
  text : String
  phones : List String
  emails : List String
  pdf_links : List String
deriving DecidableEq, Repr

/-- Python `page_hash`: the first 10 hex digits of the SHA-1 of the URL.
The SHA-1 hex digest itself (`hashlib.sha1(...).hexdigest()`) is taken as a
function parameter: the only property the program relies on is that it is a
fixed function of the URL. -/
def page_hash (sha1hex : String → String) (url : String) : String :=
  String.mk ((sha1hex url).data.take 10)

/-- Destination path computed by `save_raw`: under `data/raw/` in the
slugified county directory, named by the slug of the guessed program name
(falling back to the link text, then `"program"`) joined with the short
URL hash. -/
def save_raw_path (sha1hex : String → String) (county : String) (r : RawPageRecord) : String :=
  "data/raw/" ++ slugify county ++ "/"
  ++ slugify (if r.program_name_guess ≠ "" then r.program_name_guess
              else if r.link_text ≠ "" then r.link_text
              else "program")
  ++ "-" ++ page_hash sha1hex r.page_url ++ ".json"

/-! ### Structuring aggregation (`scraper_structure.py` main loop, also
duplicated as `run_pipeline.run_phase_3`) -/

def STATE_NAME : String := "California"

/-- One structured program as returned by the LLM collaborator; every field
is a JSON dictionary entry that may be absent (`Option`). -/
structure StructuredProgram where
  program_name : Option String
  program_category : Option String
  program_description : Option String
  target_population : Option String
  eligibility_requirements : Option String
  application_process : Option String
  required_documentation : Option String
  financial_assistance_available : Option String
  program_website_url : Option String
deriving DecidableEq, Repr

/-- The JSON object produced by one successful LLM structuring call; absent
keys are `none`. -/
structure LLMResult where
  health_department_name : Option String
  health_department_contact_email : Option String
  health_department_contact_phone : Option String
  programs : Option (List StructuredProgram)
  notes : Option String
deriving DecidableEq, Repr

/-- Per-county accumulator built by the structuring loop. -/
structure CountyStructuredRecord where
  county_name : String
  state : String
  county_website_url : String
  health_department_name : String
  health_department_contact_email : String
  health_department_contact_phone : String
  programs : List StructuredProgram
  notes : String
deriving DecidableEq, Repr

/-- One raw page presented to the structuring loop: its owning county, the
county URL recovered from the discovery metadata, and the collaborator's
response (`none` for any soft failure: unreadable file, empty or malformed
LLM output). -/
structure PageItem where
  county : String
  county_url : String
  result : Option LLMResult
deriving DecidableEq, Repr

/-- Fresh accumulator created on first sight of a county: identity fields
come from this first result with `"Not found"` defaults; programs and notes
start empty (they are filled by the append steps of the same iteration). -/
def init_county_record (county_name county_url : String) (r : LLMResult) : CountyStructuredRecord :=
  { county_name := county_name, state := STATE_NAME, county_website_url := county_url,
    health_department_name := r.health_department_name.getD "Not found",
    health_department_contact_email := r.health_department_contact_email.getD "Not found",
    health_department_contact_phone := r.health_department_contact_phone.getD "Not found",
    programs := [], notes := "" }

/-- Update the value stored under a key of the insertion-ordered dictionary
(`county_to_data[k] = f(county_to_data[k])`). -/
def updateCounty (k : String) (f : CountyStructuredRecord → CountyStructuredRecord) :
    List (String × CountyStructuredRecord) → List (String × CountyStructuredRecord)
  | [] => []
  | (k2, v) :: rest =>
    if k2 = k then (k2, f v) :: rest else (k2, v) :: updateCounty k f rest

/-- Python truthiness of an optional string (`if result.get("notes"):`). -/
def pyTruthy (o : Option String) : Bool :=
  match o with
  | none => false
  | some s => !(s == "")

/-- One iteration of the structuring loop: skip failures; create the
accumulator on first sight of the county; extend its program list; merge
notes with a space separator and strip the ends. -/
def process_page (acc : List (String × CountyStructuredRecord)) (item : PageItem) :
    List (String × CountyStructuredRecord) :=
  match item.result with
  | none => acc
  | some r =>
    let acc1 := match acc.lookup item.county with
      | some _ => acc
      | none => acc ++ [(item.county, init_county_record item.county item.county_url r)]
    let acc2 := updateCounty item.county
      (fun c => { c with programs := c.programs ++ r.programs.getD [] }) acc1
    if pyTruthy r.notes then
      updateCounty item.county
        (fun c => { c with notes := pyStrip (c.notes ++ " " ++ r.notes.getD "") }) acc2
    else acc2

/-- The whole structuring aggregation over an ordered sequence of raw
pages, starting from the empty dictionary. -/
def structure_pages (items : List PageItem) : List (String × CountyStructuredRecord) :=
  items.foldl process_page []

/-! ### CSV emission (`scraper.save_to_csv`) -/

/-- One output row with the fixed 18-column schema. -/
structure CsvRow where
  State : String
  County_Name : String
  County_Website_URL : String
  Health_Department_Name : String
  Health_Department_Contact_Email : String
  Health_Department_Contact_Phone : String
  Program_Name : String
  Program_Category : String
  Program_Description : String
  Target_Population : String
  Eligibility_Requirements : String
  Application_Process : String
  Required_Documentation : String
  Financial_Assistance_Available : String
  Program_Website_URL : String
  Last_Updated : String
  Data_Collector_Name : String
  Notes : String
deriving DecidableEq, Repr

/-- Placeholder row emitted for a county with no programs.  `today` models
`datetime.now().strftime` and `collector` the configured
`DATA_COLLECTOR_NAME`. -/
def placeholder_row (today collector : String) (c : CountyStructuredRecord) : CsvRow :=
  { State := c.state, County_Name := c.county_name, County_Website_URL := c.county_website_url,
    Health_Department_Name := c.health_department_name,
    Health_Department_Contact_Email := c.health_department_contact_email,
    Health_Department_Contact_Phone := c.health_department_contact_phone,
    Program_Name := "No programs found on main page",
    Program_Category := "", Program_Description := "", Target_Population := "",
    Eligibility_Requirements := "", Application_Process := "", Required_Documentation := "",
    Financial_Assistance_Available := "", Program_Website_URL := "",
    Last_Updated := today, Data_Collector_Name := collector, Notes := c.notes }

/-- Row emitted for one (county, program) pair; absent program fields
default to the empty string (`program.get(key, "")`). -/
def program_row (today collector : String) (c : CountyStructuredRecord) (p : StructuredProgram) : CsvRow :=
  { State := c.state, County_Name := c.county_name, County_Website_URL := c.county_website_url,
    Health_Department_Name := c.health_department_name,
    Health_Department_Contact_Email := c.health_department_contact_email,
    Health_Department_Contact_Phone := c.health_department_contact_phone,
    Program_Name := p.program_name.getD "",
    Program_Category := p.program_category.getD "",
    Program_Description := p.program_description.getD "",
    Target_Population := p.target_population.getD "",
    Eligibility_Requirements := p.eligibility_requirements.getD "",
    Application_Process := p.application_process.getD "",
    Required_Documentation := p.required_documentation.getD "",
    Financial_Assistance_Available := p.financial_assistance_available.getD "",
    Program_Website_URL := p.program_website_url.getD "",
    Last_Updated := today, Data_Collector_Name := collector, Notes := c.notes }

/-- Rows contributed by one county record: one placeholder when it has no
programs, otherwise one row per program. -/
def county_rows (today collector : String) (c : CountyStructuredRecord) : List CsvRow :=
  if c.programs.isEmpty then [placeholder_row today collector c]
  else c.programs.map (program_row today collector c)

/-- Python `save_to_csv` row construction: counties in order, each
contributing its rows. -/
def save_to_csv_rows (today collector : String) (results : List CountyStructuredRecord) : List CsvRow :=
  (results.map (county_rows today collector)).flatten

/-! ## Helper lemmas -/

theorem truncate_step_of_lt {t : String} (h : MAX_TEXT_CHARS < t.length) :
    truncate_step t = String.mk (t.data.take MAX_TEXT_CHARS) ++ TRUNC_MARKER := by
  unfold truncate_step
  rw [if_pos h]

theorem truncate_step_of_le {t : String} (h : ¬ MAX_TEXT_CHARS < t.length) :
    truncate_step t = t := by
  unfold truncate_step
  rw [if_neg h]

theorem string_length_data (s : String) : s.length = s.data.length := rfl

theorem link_value_nonneg (href text level : String) : 0 ≤ link_value href text level := by
  unfold link_value
  split_ifs <;> norm_num

theorem link_value_le_five (href text level : String) : link_value href text level ≤ 5 := by
  unfold link_value
  split_ifs <;> norm_num

theorem score_link_penalty_cases (href text level : String) :
    score_link href text level = link_value href text level
    ∨ score_link href text level = link_value href text level - 3 := by
  unfold score_link
  by_cases hs : socialPenalized href
  · right
    rw [if_pos hs]
  · left
    rw [if_neg hs]
    omega

theorem link_value_program_le (href text : String) : link_value href text "program" ≤ 3 := by
  unfold link_value
  rw [if_neg (by decide), if_neg (by decide), if_pos rfl]
  split_ifs <;> norm_num

theorem link_value_other (href text level : String) (h1 : level ≠ "dept")
    (h2 : level ≠ "section") (h3 : level ≠ "program") : link_value href text level = 0 := by
  unfold link_value
  rw [if_neg h1, if_neg h2, if_neg h3]

theorem score_link_lower (href text level : String) : -3 ≤ score_link href text level := by
  have h0 := link_value_nonneg href text level
  rcases score_link_penalty_cases href text level with h | h <;> omega

/-! ## Claim theorems, part 1 -/

/-- C7: the truncation step of `extract_text` is idempotent: truncating
already-truncated text returns it unchanged, because re-truncation cuts at
exactly the 20000-character point where the marker was appended. -/
theorem truncate_step_idempotent (t : String) :
    truncate_step (truncate_step t) = truncate_step t := by
  by_cases h : MAX_TEXT_CHARS < t.length
  · have htake : (t.data.take MAX_TEXT_CHARS).length = MAX_TEXT_CHARS := by
      rw [List.length_take]
      have := string_length_data t
      omega
    have hlen : MAX_TEXT_CHARS < (String.mk (t.data.take MAX_TEXT_CHARS) ++ TRUNC_MARKER).length := by
      rw [string_length_data, String.data_append]
      rw [List.length_append]
      have hm : (0:Nat) < TRUNC_MARKER.data.length := by decide
      change MAX_TEXT_CHARS < (t.data.take MAX_TEXT_CHARS).length + TRUNC_MARKER.data.length
      omega
    rw [truncate_step_of_lt h, truncate_step_of_lt hlen]
    apply String.ext
    rw [String.data_append, String.data_append]
    change (t.data.take MAX_TEXT_CHARS ++ TRUNC_MARKER.data).take MAX_TEXT_CHARS ++ TRUNC_MARKER.data
      = t.data.take MAX_TEXT_CHARS ++ TRUNC_MARKER.data
    rw [List.take_append_eq_append_take, htake]
    simp
  · rw [truncate_step_of_le h, truncate_step_of_le h]

/-- C8: with equal keyword and path contributions at the same level, a
candidate hitting the social-media penalty scores at most the one that
does not. -/
theorem social_penalty_dominates (h1 t1 h2 t2 level : String)
    (hval : link_value h1 t1 level = link_value h2 t2 level)
    (hs1 : socialPenalized h1 = true) (hs2 : socialPenalized h2 = false) :
    score_link h1 t1 level ≤ score_link h2 t2 level := by
  unfold score_link
  rw [hval, hs1, hs2]
  simp

/-- Witness for C8 at a concrete pair of anchors with equal (zero)
keyword and path contributions. -/
theorem social_penalty_dominates_witness :
    score_link "https://facebook.com/page" "County Page" "dept"
      ≤ score_link "https://a.org/page" "County Page" "dept" :=
  social_penalty_dominates "https://facebook.com/page" "County Page" "https://a.org/page"
    "County Page" "dept" (by decide) (by decide) (by decide)

/-- C10: every score lies between -3 and 5; at most 3 at the program
level; any unrecognised level tag only ever yields 0 or -3. -/
theorem score_link_bounds (href text level : String) :
    (-3 ≤ score_link href text level ∧ score_link href text level ≤ 5)
    ∧ (level = "program" → score_link href text level ≤ 3)
    ∧ (level ≠ "dept" → level ≠ "section" → level ≠ "program" →
        score_link href text level = 0 ∨ score_link href text level = -3) := by
  have h0 := link_value_nonneg href text level
  have h5 := link_value_le_five href text level
  refine ⟨⟨score_link_lower href text level, ?_⟩, ?_, ?_⟩
  · rcases score_link_penalty_cases href text level with h | h <;> omega
  · intro hp
    subst hp
    have h3 := link_value_program_le href text
    rcases score_link_penalty_cases href text "program" with h | h <;> omega
  · intro hd hsec hp
    have hz := link_value_other href text level hd hsec hp
    rcases score_link_penalty_cases href text level with h | h <;> omega

/-- Witness for C10 at a concrete anchor with an unrecognised level tag. -/
theorem score_link_bounds_witness :
    score_link "https://x.org/other" "hello" "misc" = 0
    ∨ score_link "https://x.org/other" "hello" "misc" = -3 :=
  (score_link_bounds "https://x.org/other" "hello" "misc").2.2
    (by decide) (by decide) (by decide)

/-! ## Best-link selection lemmas -/

theorem eligibleAnchor_eq_true (base : String) (p : String × String) :
    eligibleAnchor base p = true ↔
      pyStartsWith p.1 "http" = true ∧ is_same_domain base p.1 = true := by
  simp [eligibleAnchor, Bool.and_eq_true]

theorem choose_best_aux_keep (base level : String) :
    ∀ (links : List (String × String)) (h : String) (s : Int),
      (choose_best_aux base level links (some h) s).isSome = true := by
  intro links
  induction links with
  | nil => intro h s; rfl
  | cons x rest ih =>
    intro h s
    obtain ⟨href, text⟩ := x
    simp only [choose_best_aux]
    split_ifs <;> apply ih

theorem choose_best_aux_none_of_all (base level : String) :
    ∀ (links : List (String × String)) (s : Int),
      (∀ p ∈ links, eligibleAnchor base p = false) →
      choose_best_aux base level links none s = none := by
  intro links
  induction links with
  | nil => intro s _; rfl
  | cons x rest ih =>
    intro s hall
    obtain ⟨href, text⟩ := x
    have hx : eligibleAnchor base (href, text) = false := hall _ (List.mem_cons_self _ _)
    have hrest : ∀ p ∈ rest, eligibleAnchor base p = false :=
      fun p hp => hall p (List.mem_cons_of_mem _ hp)
    simp only [choose_best_aux]
    cases h1 : pyStartsWith href "http" with
    | false =>
      simp only [h1, Bool.not_false, if_true]
      exact ih s hrest
    | true =>
      cases h2 : is_same_domain base href with
      | false =>
        simp only [h1, h2, Bool.not_true, Bool.not_false, if_false, if_true]
        exact ih s hrest
      | true =>
        exfalso
        simp [eligibleAnchor, h1, h2] at hx

theorem choose_best_aux_isSome_of_elig (base level : String) :
    ∀ (links : List (String × String)) (s : Int) (p : String × String),
      p ∈ links → eligibleAnchor base p = true →
      (∀ q ∈ links, eligibleAnchor base q = true → s < scoreAt level q) →
      (choose_best_aux base level links none s).isSome = true := by
  intro links
  induction links with
  | nil => intro s p hp _ _; exact absurd hp (List.not_mem_nil p)
  | cons x rest ih =>
    intro s p hp helig hbound
    obtain ⟨href, text⟩ := x
    simp only [choose_best_aux]
    cases h1 : pyStartsWith href "http" with
    | false =>
      simp only [h1, Bool.not_false, if_true]
      rcases List.mem_cons.mp hp with rfl | hmem
      · exfalso; simp [eligibleAnchor, h1] at helig
      · exact ih s p hmem helig
          (fun q hq hqe => hbound q (List.mem_cons_of_mem _ hq) hqe)
    | true =>
      cases h2 : is_same_domain base href with
      | false =>
        simp only [h1, h2, Bool.not_true, Bool.not_false, if_false, if_true]
        rcases List.mem_cons.mp hp with rfl | hmem
        · exfalso; simp [eligibleAnchor, h1, h2] at helig
        · exact ih s p hmem helig
            (fun q hq hqe => hbound q (List.mem_cons_of_mem _ hq) hqe)
      | true =>
        have hhead : eligibleAnchor base (href, text) = true := by
          simp [eligibleAnchor, h1, h2]
        have hlt : s < score_link href text level :=
          hbound (href, text) (List.mem_cons_self _ _) hhead
        simp only [h1, h2, Bool.not_true, if_false, if_pos hlt]
        exact choose_best_aux_keep base level rest href _

/-- C9: `choose_best_link` returns a candidate exactly when the anchor list
holds at least one absolute http-prefixed same-domain href, regardless of
scores; so in discovery the fallback to the previous URL fires only on a
fetch failure or a page with no eligible anchor, never merely because no
anchor matched a keyword. -/
theorem choose_best_link_isSome_iff (links : List (String × String)) (base_url level : String) :
    (choose_best_link links base_url level).isSome = true ↔
      ∃ p ∈ links, pyStartsWith p.1 "http" = true ∧ is_same_domain base_url p.1 = true := by
  constructor
  · intro hs
    by_contra hno
    have hall : ∀ p ∈ links, eligibleAnchor base_url p = false := by
      intro p hp
      rcases Bool.eq_false_or_eq_true (eligibleAnchor base_url p) with ht | hf
      · exact absurd ⟨p, hp, (eligibleAnchor_eq_true _ _).mp ht⟩ hno
      · exact hf
    have : choose_best_link links base_url level = none :=
      choose_best_aux_none_of_all base_url level links (-999) hall
    rw [this] at hs
    exact Bool.false_ne_true hs
  · rintro ⟨p, hp, hA, hB⟩
    have he : eligibleAnchor base_url p = true := (eligibleAnchor_eq_true _ _).mpr ⟨hA, hB⟩
    refine choose_best_aux_isSome_of_elig base_url level links (-999) p hp he ?_
    intro q _ _
    have h3 := score_link_lower q.1 q.2 level
    show (-999 : Int) < score_link q.1 q.2 level
    omega

theorem choose_best_aux_champ (base level : String) :
    ∀ (links : List (String × String)) (c : String × String) (hfin : String),
      choose_best_aux base level links (some c.1) (scoreAt level c) = some hfin →
      (hfin = c.1 ∧ ∀ q ∈ links, eligibleAnchor base q = true →
          scoreAt level q ≤ scoreAt level c)
      ∨ (∃ pre p suf, links = pre ++ p :: suf ∧ eligibleAnchor base p = true ∧ p.1 = hfin ∧
          scoreAt level c < scoreAt level p ∧
          (∀ q ∈ pre, eligibleAnchor base q = true → scoreAt level q < scoreAt level p) ∧
          (∀ q ∈ suf, eligibleAnchor base q = true → scoreAt level q ≤ scoreAt level p)) := by
  intro links
  induction links with
  | nil =>
    intro c hfin H
    left
    refine ⟨(Option.some.inj H).symm, ?_⟩
    intro q hq
    exact absurd hq (List.not_mem_nil q)
  | cons x rest ih =>
    intro c hfin H
    obtain ⟨href, text⟩ := x
    simp only [choose_best_aux] at H
    cases h1 : pyStartsWith href "http" with
    | false =>
      rw [h1] at H
      simp only [Bool.not_false, if_true] at H
      rcases ih c hfin H with ⟨heq, hball⟩ | ⟨pre, p, suf, heq, helig, hp1, hlt, hpre, hsuf⟩
      · left
        refine ⟨heq, ?_⟩
        intro q hq hqe
        rcases List.mem_cons.mp hq with rfl | hmem
        · exfalso; simp [eligibleAnchor, h1] at hqe
        · exact hball q hmem hqe
      · right
        refine ⟨(href, text) :: pre, p, suf, by rw [heq]; rfl, helig, hp1, hlt, ?_, hsuf⟩
        intro q hq hqe
        rcases List.mem_cons.mp hq with rfl | hmem
        · exfalso; simp [eligibleAnchor, h1] at hqe
        · exact hpre q hmem hqe
    | true =>
      cases h2 : is_same_domain base href with
      | false =>
        rw [h1, h2] at H
        simp only [Bool.not_true, Bool.not_false, if_false, if_true] at H
        rcases ih c hfin H with ⟨heq, hball⟩ | ⟨pre, p, suf, heq, helig, hp1, hlt, hpre, hsuf⟩
        · left
          refine ⟨heq, ?_⟩
          intro q hq hqe
          rcases List.mem_cons.mp hq with rfl | hmem
          · exfalso; simp [eligibleAnchor, h1, h2] at hqe
          · exact hball q hmem hqe
        · right
          refine ⟨(href, text) :: pre, p, suf, by rw [heq]; rfl, helig, hp1, hlt, ?_, hsuf⟩
          intro q hq hqe
          rcases List.mem_cons.mp hq with rfl | hmem
          · exfalso; simp [eligibleAnchor, h1, h2] at hqe
          · exact hpre q hmem hqe
      | true =>
        have hhead : eligibleAnchor base (href, text) = true := by
          simp [eligibleAnchor, h1, h2]
        rw [h1, h2] at H
        simp only [Bool.not_true, if_false] at H
        by_cases h3 : scoreAt level c < score_link href text level
        · rw [if_pos h3] at H
          have H2 : choose_best_aux base level rest (some (href, text).1)
              (scoreAt level (href, text)) = some hfin := H
          rcases ih (href, text) hfin H2 with ⟨heq, hball⟩ |
            ⟨pre, p, suf, heq, helig, hp1, hlt, hpre, hsuf⟩
          · right
            refine ⟨[], (href, text), rest, rfl, hhead, heq.symm, h3, ?_, hball⟩
            intro q hq
            exact absurd hq (List.not_mem_nil q)
          · right
            refine ⟨(href, text) :: pre, p, suf, by rw [heq]; rfl, helig, hp1,
              h3.trans hlt, ?_, hsuf⟩
            intro q hq hqe
            rcases List.mem_cons.mp hq with rfl | hmem
            · exact hlt
            · exact hpre q hmem hqe
        · rw [if_neg h3] at H
          rcases ih c hfin H with ⟨heq, hball⟩ |
            ⟨pre, p, suf, heq, helig, hp1, hlt, hpre, hsuf⟩
          · left
            refine ⟨heq, ?_⟩
            intro q hq hqe
            rcases List.mem_cons.mp hq with rfl | hmem
            · exact le_of_not_lt h3
            · exact hball q hmem hqe
          · right
            refine ⟨(href, text) :: pre, p, suf, by rw [heq]; rfl, helig, hp1, hlt, ?_, hsuf⟩
            intro q hq hqe
            rcases List.mem_cons.mp hq with rfl | hmem
            · exact lt_of_le_of_lt (le_of_not_lt h3) hlt
            · exact hpre q hmem hqe

theorem choose_best_aux_start (base level : String) :
    ∀ (links : List (String × String)) (s : Int) (hfin : String),
      (∀ q : String × String, eligibleAnchor base q = true → s < scoreAt level q) →
      choose_best_aux base level links none s = some hfin →
      ∃ pre p suf, links = pre ++ p :: suf ∧ eligibleAnchor base p = true ∧ p.1 = hfin ∧
        (∀ q ∈ pre, eligibleAnchor base q = true → scoreAt level q < scoreAt level p) ∧
        (∀ q ∈ suf, eligibleAnchor base q = true → scoreAt level q ≤ scoreAt level p) := by
  intro links
  induction links with
  | nil =>
    intro s hfin _ H
    exact absurd H (by simp [choose_best_aux])
  | cons x rest ih =>
    intro s hfin hbound H
    obtain ⟨href, text⟩ := x
    simp only [choose_best_aux] at H
    cases h1 : pyStartsWith href "http" with
    | false =>
      rw [h1] at H
      simp only [Bool.not_false, if_true] at H
      obtain ⟨pre, p, suf, heq, helig, hp1, hpre, hsuf⟩ := ih s hfin hbound H
      refine ⟨(href, text) :: pre, p, suf, by rw [heq]; rfl, helig, hp1, ?_, hsuf⟩
      intro q hq hqe
      rcases List.mem_cons.mp hq with rfl | hmem
      · exfalso; simp [eligibleAnchor, h1] at hqe
      · exact hpre q hmem hqe
    | true =>
      cases h2 : is_same_domain base href with
      | false =>
        rw [h1, h2] at H
        simp only [Bool.not_true, Bool.not_false, if_false, if_true] at H
        obtain ⟨pre, p, suf, heq, helig, hp1, hpre, hsuf⟩ := ih s hfin hbound H
        refine ⟨(href, text) :: pre, p, suf, by rw [heq]; rfl, helig, hp1, ?_, hsuf⟩
        intro q hq hqe
        rcases List.mem_cons.mp hq with rfl | hmem
        · exfalso; simp [eligibleAnchor, h1, h2] at hqe
        · exact hpre q hmem hqe
      | true =>
        have hhead : eligibleAnchor base (href, text) = true := by
          simp [eligibleAnchor, h1, h2]
        have h3 : s < score_link href text level := hbound (href, text) hhead
        rw [h1, h2] at H
        simp only [Bool.not_true, if_false] at H
        rw [if_pos h3] at H
        have H2 : choose_best_aux base level rest (some (href, text).1)
            (scoreAt level (href, text)) = some hfin := H
        rcases choose_best_aux_champ base level rest (href, text) hfin H2 with
          ⟨heq, hball⟩ | ⟨pre, p, suf, heq, helig, hp1, hlt, hpre, hsuf⟩
        · refine ⟨[], (href, text), rest, rfl, hhead, heq.symm, ?_, hball⟩
          intro q hq
          exact absurd hq (List.not_mem_nil q)
        · refine ⟨(href, text) :: pre, p, suf, by rw [heq]; rfl, helig, hp1, ?_, hsuf⟩
          intro q hq hqe
          rcases List.mem_cons.mp hq with rfl | hmem
          · exact hlt
          · exact hpre q hmem hqe

theorem is_same_domain_characterization (base_url cand : String) :
    is_same_domain base_url cand = true ↔
      (netloc cand = netloc base_url
       ∨ ∃ sub : String, netloc cand = sub ++ "." ++ netloc base_url) := by
  unfold is_same_domain
  rw [Bool.or_eq_true, beq_iff_eq, List.isSuffixOf_iff_suffix]
  constructor
  · rintro (h | ⟨t, ht⟩)
    · exact Or.inl h
    · refine Or.inr ⟨String.mk t, ?_⟩
      apply String.ext
      rw [String.data_append, String.data_append]
      rw [← ht, String.data_append]
      simp [List.append_assoc]
  · rintro (h | ⟨sub, h⟩)
    · exact Or.inl h
    · refine Or.inr ⟨sub.data, ?_⟩
      have hd : (netloc cand).data = (sub ++ "." ++ netloc base_url).data := by rw [h]
      rw [String.data_append, String.data_append] at hd
      rw [hd, String.data_append]
      simp [List.append_assoc]

/-- C4 (amended): the department/section winner is the first-seen eligible
anchor with the strictly highest score (every earlier eligible anchor
scores strictly less, every later one at most as much); eligibility
excludes off-domain candidates by full-host matching — the candidate host
equals the base host or is a dot-separated subdomain of it (not
second-level-domain matching); and program-link collection keeps a
positively scored absolute link with no domain condition at all. -/
theorem choose_best_link_selection_spec (links : List (String × String))
    (base_url level hfin : String) :
    (choose_best_link links base_url level = some hfin →
      ∃ pre p suf, links = pre ++ p :: suf ∧ eligibleAnchor base_url p = true ∧ p.1 = hfin ∧
        (∀ q ∈ pre, eligibleAnchor base_url q = true → scoreAt level q < scoreAt level p) ∧
        (∀ q ∈ suf, eligibleAnchor base_url q = true → scoreAt level q ≤ scoreAt level p))
    ∧ (∀ cand : String, is_same_domain base_url cand = true ↔
        (netloc cand = netloc base_url
         ∨ ∃ sub : String, netloc cand = sub ++ "." ++ netloc base_url))
    ∧ (∀ h t : String, pyStartsWith h "http" = true → 0 < score_link h t "program" →
        collect_program_links_from [(h, t)] 25
          = [{ name := t, url := h, link_text := t, nav_path := "" }]) := by
  refine ⟨?_, ?_, ?_⟩
  · intro H
    refine choose_best_aux_start base_url level links (-999) hfin ?_ H
    intro q _
    have h3 := score_link_lower q.1 q.2 level
    show (-999 : Int) < score_link q.1 q.2 level
    omega
  · intro cand
    exact is_same_domain_characterization base_url cand
  · intro h t hh hpos
    have hneg : ¬ (score_link h t "program" ≤ 0) := by omega
    simp [collect_program_links_from, scored_program_links, sortDesc, dedupTake,
      insertDesc, toProgramLink, hh, hneg]

/-- Witness for C4 at the spec's own end-to-end scenario: a page with a
"Contact Us" anchor and a "Public Health Department" anchor pointing at
`/health`; the latter wins department selection. -/
theorem choose_best_link_selection_spec_witness :
    (∃ pre p suf,
      [("https://a.org/contact", "Contact Us"),
       ("https://a.org/health", "Public Health Department")] = pre ++ p :: suf
      ∧ eligibleAnchor "https://a.org/" p = true ∧ p.1 = "https://a.org/health" ∧
      (∀ q ∈ pre, eligibleAnchor "https://a.org/" q = true →
          scoreAt "dept" q < scoreAt "dept" p) ∧
      (∀ q ∈ suf, eligibleAnchor "https://a.org/" q = true →
          scoreAt "dept" q ≤ scoreAt "dept" p))
    ∧ collect_program_links_from [("https://elsewhere.org/wic", "WIC")] 25
        = [{ name := "WIC", url := "https://elsewhere.org/wic",
             link_text := "WIC", nav_path := "" }] :=
  ⟨(choose_best_link_selection_spec
      [("https://a.org/contact", "Contact Us"),
       ("https://a.org/health", "Public Health Department")]
      "https://a.org/" "dept" "https://a.org/health").1 (by decide),
   (choose_best_link_selection_spec [] "https://a.org/" "dept" "").2.2
      "https://elsewhere.org/wic" "WIC" (by decide) (by decide)⟩

/-- Counterexample to C4 as stated: `www.acgov.org` and `acgov.org` share
the second-level domain `acgov.org`, yet `is_same_domain` rejects the pair
and department selection drops the candidate entirely, so the exclusion is
full-host matching, not second-level-domain matching. -/
theorem choose_best_link_not_second_level_domain :
    second_level_domain (netloc "https://www.acgov.org/")
      = second_level_domain (netloc "https://acgov.org/health")
    ∧ is_same_domain "https://www.acgov.org/" "https://acgov.org/health" = false
    ∧ choose_best_link [("https://acgov.org/health", "Public Health Department")]
        "https://www.acgov.org/" "dept" = none := by
  refine ⟨by decide, by decide, by decide⟩

/-! ## Program-link collection lemmas -/

theorem insertDesc_perm (x : Int × String × String) (l : List (Int × String × String)) :
    (insertDesc x l).Perm (x :: l) := by
  induction l with
  | nil => exact List.Perm.refl _
  | cons y ys ih =>
    simp only [insertDesc]
    by_cases h : y.1 ≤ x.1
    · rw [if_pos h]
    · rw [if_neg h]
      exact (ih.cons y).trans (List.Perm.swap x y ys)

theorem sortDesc_perm (l : List (Int × String × String)) : (sortDesc l).Perm l := by
  induction l with
  | nil => exact List.Perm.refl _
  | cons x xs ih =>
    show (insertDesc x (sortDesc xs)).Perm (x :: xs)
    exact (insertDesc_perm x (sortDesc xs)).trans (ih.cons x)

theorem insertDesc_sorted (x : Int × String × String) (l : List (Int × String × String))
    (hl : l.Pairwise (fun a b => b.1 ≤ a.1)) :
    (insertDesc x l).Pairwise (fun a b => b.1 ≤ a.1) := by
  induction l with
  | nil => simp [insertDesc]
  | cons y ys ih =>
    rcases List.pairwise_cons.mp hl with ⟨hy, hys⟩
    simp only [insertDesc]
    by_cases h : y.1 ≤ x.1
    · rw [if_pos h]
      refine List.pairwise_cons.mpr ⟨?_, hl⟩
      intro z hz
      rcases List.mem_cons.mp hz with rfl | hmem
      · exact h
      · exact le_trans (hy z hmem) h
    · rw [if_neg h]
      refine List.pairwise_cons.mpr ⟨?_, ih hys⟩
      intro z hz
      have hz2 : z ∈ x :: ys := (insertDesc_perm x ys).mem_iff.mp hz
      rcases List.mem_cons.mp hz2 with rfl | hmem
      · exact le_of_lt (lt_of_not_le h)
      · exact hy z hmem

theorem sortDesc_sorted (l : List (Int × String × String)) :
    (sortDesc l).Pairwise (fun a b => b.1 ≤ a.1) := by
  induction l with
  | nil => simp [sortDesc]
  | cons x xs ih =>
    show (insertDesc x (sortDesc xs)).Pairwise (fun a b => b.1 ≤ a.1)
    exact insertDesc_sorted x (sortDesc xs) ih

theorem dedupTake_eq_map_sublist (k : Nat) (l : List (Int × String × String))
    (seen : List String) :
    ∃ l2 : List (Int × String × String),
      List.Sublist l2 l ∧ dedupTake k l seen = l2.map toProgramLink := by
  induction l generalizing k seen with
  | nil => exact ⟨[], List.Sublist.refl _, rfl⟩
  | cons x rest ih =>
    simp only [dedupTake]
    by_cases hs : seen.contains x.2.1 = true
    · rw [if_pos hs]
      obtain ⟨l2, hsub, heq⟩ := ih k seen
      exact ⟨l2, hsub.cons x, heq⟩
    · rw [if_neg hs]
      by_cases hk : k ≤ 1
      · rw [if_pos hk]
        exact ⟨[x], List.Sublist.cons₂ x (List.nil_sublist rest), rfl⟩
      · rw [if_neg hk]
        obtain ⟨l2, hsub, heq⟩ := ih (k - 1) (x.2.1 :: seen)
        exact ⟨x :: l2, hsub.cons₂ x, by rw [List.map_cons, heq]⟩

theorem dedupTake_urls_nodup (k : Nat) (l : List (Int × String × String))
    (seen : List String) :
    ((dedupTake k l seen).map ProgramLink.url).Nodup ∧
    ∀ p ∈ dedupTake k l seen, p.url ∉ seen := by
  induction l generalizing k seen with
  | nil =>
    refine ⟨List.nodup_nil, ?_⟩
    intro p hp
    exact absurd hp (List.not_mem_nil p)
  | cons x rest ih =>
    simp only [dedupTake]
    by_cases hs : seen.contains x.2.1 = true
    · rw [if_pos hs]
      exact ih k seen
    · rw [if_neg hs]
      by_cases hk : k ≤ 1
      · rw [if_pos hk]
        refine ⟨by simp, ?_⟩
        intro p hp
        rw [List.mem_singleton] at hp
        subst hp
        intro hmem
        exact hs (List.elem_iff.mpr hmem)
      · rw [if_neg hk]
        obtain ⟨ihnodup, ihseen⟩ := ih (k - 1) (x.2.1 :: seen)
        constructor
        · rw [List.map_cons]
          refine List.nodup_cons.mpr ⟨?_, ihnodup⟩
          intro hmem
          obtain ⟨p, hp, hpu⟩ := List.mem_map.mp hmem
          refine ihseen p hp ?_
          rw [hpu]
          exact List.mem_cons_self _ _
        · intro p hp
          rcases List.mem_cons.mp hp with rfl | hmem
          · intro hmem2
            exact hs (List.elem_iff.mpr hmem2)
          · intro hmem2
            exact ihseen p hmem (List.mem_cons_of_mem _ hmem2)

theorem dedupTake_length (k : Nat) (l : List (Int × String × String)) (seen : List String) :
    1 ≤ k → (dedupTake k l seen).length ≤ k := by
  induction l generalizing k seen with
  | nil => intro _; simp [dedupTake]
  | cons x rest ih =>
    intro hk
    simp only [dedupTake]
    by_cases hs : seen.contains x.2.1 = true
    · rw [if_pos hs]
      exact ih k seen hk
    · rw [if_neg hs]
      by_cases hle : k ≤ 1
      · rw [if_pos hle]
        simpa using hk
      · rw [if_neg hle]
        rw [List.length_cons]
        have := ih (k - 1) (x.2.1 :: seen) (by omega)
        omega

theorem scored_program_links_mem (links : List (String × String)) (x : Int × String × String)
    (hx : x ∈ scored_program_links links) :
    x.1 = score_link x.2.1 x.2.2 "program" ∧ 0 < x.1 ∧ pyStartsWith x.2.1 "http" = true := by
  obtain ⟨p, _, hf⟩ := List.mem_filterMap.mp hx
  by_cases h1 : pyStartsWith p.1 "http" = true
  · rw [h1, Bool.not_true] at hf
    rw [if_neg Bool.false_ne_true] at hf
    by_cases h2 : score_link p.1 p.2 "program" ≤ 0
    · rw [if_pos h2] at hf
      exact absurd hf (by simp)
    · rw [if_neg h2] at hf
      injection hf with hf2
      subst hf2
      exact ⟨rfl, by omega, h1⟩
  · simp [h1] at hf

theorem collect_program_links_from_spec (links : List (String × String)) :
    (collect_program_links_from links 25).length ≤ 25
    ∧ ((collect_program_links_from links 25).map ProgramLink.url).Nodup
    ∧ (collect_program_links_from links 25).Pairwise
        (fun p q => score_link q.url q.link_text "program"
          ≤ score_link p.url p.link_text "program")
    ∧ ∀ p ∈ collect_program_links_from links 25,
        0 < score_link p.url p.link_text "program" := by
  obtain ⟨l2, hsub, heq⟩ := dedupTake_eq_map_sublist 25 (sortDesc (scored_program_links links)) []
  have hperm := sortDesc_perm (scored_program_links links)
  have hsorted := sortDesc_sorted (scored_program_links links)
  have hmem_scored : ∀ x ∈ l2, x ∈ scored_program_links links := by
    intro x hx
    exact hperm.mem_iff.mp (hsub.subset hx)
  refine ⟨?_, ?_, ?_, ?_⟩
  · exact dedupTake_length 25 (sortDesc (scored_program_links links)) [] (by norm_num)
  · exact (dedupTake_urls_nodup 25 (sortDesc (scored_program_links links)) []).1
  · have hcol : collect_program_links_from links 25 = l2.map toProgramLink := heq
    rw [hcol, List.pairwise_map]
    have h2 : l2.Pairwise (fun a b => b.1 ≤ a.1) := List.Pairwise.sublist hsub hsorted
    refine List.Pairwise.imp_of_mem ?_ h2
    intro a b ha hb hab
    have ha2 := scored_program_links_mem links a (hmem_scored a ha)
    have hb2 := scored_program_links_mem links b (hmem_scored b hb)
    show score_link b.2.1 b.2.2 "program" ≤ score_link a.2.1 a.2.2 "program"
    rw [← ha2.1, ← hb2.1]
    exact hab
  · intro p hp
    have hcol : collect_program_links_from links 25 = l2.map toProgramLink := heq
    rw [hcol] at hp
    obtain ⟨x, hx, rfl⟩ := List.mem_map.mp hp
    have hx2 := scored_program_links_mem links x (hmem_scored x hx)
    show 0 < score_link x.2.1 x.2.2 "program"
    rw [← hx2.1]
    exact hx2.2.1

theorem collect_program_links_spec (W : Net) (seed : String) :
    (collect_program_links W seed 25).length ≤ 25
    ∧ ((collect_program_links W seed 25).map ProgramLink.url).Nodup
    ∧ (collect_program_links W seed 25).Pairwise
        (fun p q => score_link q.url q.link_text "program"
          ≤ score_link p.url p.link_text "program")
    ∧ ∀ p ∈ collect_program_links W seed 25,
        0 < score_link p.url p.link_text "program" := by
  unfold collect_program_links
  cases hW : W seed with
  | none => exact ⟨by simp, by simp, by simp, by simp⟩
  | some links => exact collect_program_links_from_spec links

theorem nav_map_preserves (R : List ProgramLink) (nav : String)
    (h1 : R.length ≤ 25) (h2 : (R.map ProgramLink.url).Nodup)
    (h3 : R.Pairwise (fun p q => score_link q.url q.link_text "program"
        ≤ score_link p.url p.link_text "program"))
    (h4 : ∀ p ∈ R, 0 < score_link p.url p.link_text "program") :
    (R.map (fun p => { p with nav_path := nav })).length ≤ 25
    ∧ ((R.map (fun p => { p with nav_path := nav })).map ProgramLink.url).Nodup
    ∧ (R.map (fun p => { p with nav_path := nav })).Pairwise
        (fun p q => score_link q.url q.link_text "program"
          ≤ score_link p.url p.link_text "program")
    ∧ ∀ p ∈ R.map (fun p => { p with nav_path := nav }),
        0 < score_link p.url p.link_text "program" := by
  refine ⟨?_, ?_, ?_, ?_⟩
  · rw [List.length_map]
    exact h1
  · rw [List.map_map]
    have hfun : (ProgramLink.url ∘ fun p => { p with nav_path := nav }) = ProgramLink.url :=
      funext (fun p => rfl)
    rw [hfun]
    exact h2
  · rw [List.pairwise_map]
    exact h3
  · intro p hp
    obtain ⟨q, hq, rfl⟩ := List.mem_map.mp hp
    exact h4 q hq

/-- C1: for every county (any network behaviour, any county name and root
URL), the discovery record's program list has at most 25 entries, no
duplicate URLs, is sorted by non-increasing recomputed program-level
score, and every listed link's recomputed program-level score is strictly
positive. -/
theorem run_discovery_programs_spec (W : Net) (county_name county_root_url : String) :
    (run_discovery_for_county W county_name county_root_url).programs.length ≤ 25
    ∧ ((run_discovery_for_county W county_name county_root_url).programs.map
        ProgramLink.url).Nodup
    ∧ (run_discovery_for_county W county_name county_root_url).programs.Pairwise
        (fun p q => score_link q.url q.link_text "program"
          ≤ score_link p.url p.link_text "program")
    ∧ ∀ p ∈ (run_discovery_for_county W county_name county_root_url).programs,
        0 < score_link p.url p.link_text "program" := by
  simp only [run_discovery_for_county]
  obtain ⟨h1, h2, h3, h4⟩ := collect_program_links_spec W
    ((find_maternal_section W
        ((find_health_dept_page W county_root_url).getD county_root_url)).getD
      ((find_health_dept_page W county_root_url).getD county_root_url))
  exact nav_map_preserves _ _ h1 h2 h3 h4

/-- C5 (amended): every fetch failure degrades to a fallback URL instead
of aborting the county — a totally unreachable root yields the empty
record; a missing department page leaves the field empty and continues
the section search from the root; a found department page is recorded and
searched; a missing maternal section leaves that field empty and collects
program links from the department-page fallback. (The converse direction
of the original claim is false: see the counterexample, a reachable root
can still yield an empty program list.) -/
theorem run_discovery_fallback_spec (W : Net) (n r : String) :
    (W r = none →
      run_discovery_for_county W n r =
        { county_name := n, county_url := r, health_dept_url := "",
          maternal_section_url := "", programs := [] })
    ∧ (find_health_dept_page W r = none →
        (run_discovery_for_county W n r).health_dept_url = ""
        ∧ (run_discovery_for_county W n r).maternal_section_url
            = (find_maternal_section W r).getD "")
    ∧ (∀ d, find_health_dept_page W r = some d →
        (run_discovery_for_county W n r).health_dept_url = d
        ∧ (run_discovery_for_county W n r).maternal_section_url
            = (find_maternal_section W d).getD "")
    ∧ (find_health_dept_page W r = none → find_maternal_section W r = none →
        (run_discovery_for_county W n r).programs
          = (collect_program_links W r 25).map
              (fun p => { p with nav_path := "Main → Health Dept" }))
    ∧ (∀ d, find_health_dept_page W r = some d → find_maternal_section W d = none →
        (run_discovery_for_county W n r).programs
          = (collect_program_links W d 25).map
              (fun p => { p with nav_path := "Main → Health Dept" })) := by
  refine ⟨?_, ?_, ?_, ?_, ?_⟩
  · intro hW
    simp [run_discovery_for_county, find_health_dept_page, find_maternal_section,
      collect_program_links, hW]
  · intro hd
    simp [run_discovery_for_county, hd]
  · intro d hd
    simp [run_discovery_for_county, hd]
  · intro hd hm
    simp [run_discovery_for_county, hd, hm]
  · intro d hd hm
    simp [run_discovery_for_county, hd, hm]

/-- Witness for C5: a network on which every fetch fails produces the
degenerate record with empty fields and no programs. -/
theorem run_discovery_fallback_spec_witness :
    run_discovery_for_county (fun _ => none) "Alpha" "https://a.org/" =
      { county_name := "Alpha", county_url := "https://a.org/", health_dept_url := "",
        maternal_section_url := "", programs := [] } :=
  (run_discovery_fallback_spec (fun _ => none) "Alpha" "https://a.org/").1 rfl

/-- Counterexample to C5 as stated: a perfectly reachable root whose page
has no anchors at all still yields an empty program list, so an empty
program list does not imply an unreachable root. -/
theorem reachable_root_empty_programs :
    (fun u => if u = "https://a.org/" then some ([] : List (String × String)) else none)
        "https://a.org/" = some []
    ∧ (run_discovery_for_county
        (fun u => if u = "https://a.org/" then some ([] : List (String × String)) else none)
        "Alpha" "https://a.org/").programs = [] := by
  refine ⟨by decide, by decide⟩

/-! ## Structuring-merge lemmas -/

theorem lookup_updateCounty (k : String) (f : CountyStructuredRecord → CountyStructuredRecord) :
    ∀ l : List (String × CountyStructuredRecord),
      (updateCounty k f l).lookup k = (l.lookup k).map f := by
  intro l
  induction l with
  | nil => rfl
  | cons x rest ih =>
    obtain ⟨k2, v⟩ := x
    simp only [updateCounty]
    by_cases h : k2 = k
    · rw [if_pos h]
      subst h
      simp [List.lookup]
    · rw [if_neg h]
      have hbeq : (k == k2) = false := by
        rw [beq_eq_false_iff_ne]
        exact fun he => h he.symm
      simp only [List.lookup, hbeq]
      exact ih

theorem lookup_append_single (acc : List (String × CountyStructuredRecord)) (k : String)
    (v : CountyStructuredRecord) (h : acc.lookup k = none) :
    (acc ++ [(k, v)]).lookup k = some v := by
  induction acc with
  | nil => simp [List.lookup]
  | cons x rest ih =>
    obtain ⟨k2, w⟩ := x
    cases hbeq : (k == k2) with
    | true =>
      exfalso
      simp only [List.lookup, hbeq] at h
      exact Option.some_ne_none w h
    | false =>
      simp only [List.lookup, hbeq] at h
      simp only [List.cons_append, List.lookup, hbeq]
      exact ih h

theorem process_page_new (acc : List (String × CountyStructuredRecord)) (item : PageItem)
    (r : LLMResult) (hres : item.result = some r) (hnone : acc.lookup item.county = none) :
    (process_page acc item).lookup item.county = some
      { county_name := item.county, state := STATE_NAME,
        county_website_url := item.county_url,
        health_department_name := r.health_department_name.getD "Not found",
        health_department_contact_email := r.health_department_contact_email.getD "Not found",
        health_department_contact_phone := r.health_department_contact_phone.getD "Not found",
        programs := r.programs.getD [],
        notes := if pyTruthy r.notes then pyStrip (" " ++ r.notes.getD "") else "" } := by
  unfold process_page
  rw [hres]
  simp only [hnone]
  by_cases ht : pyTruthy r.notes = true
  · rw [if_pos ht, if_pos ht, lookup_updateCounty, lookup_updateCounty,
      lookup_append_single acc item.county _ hnone]
    rfl
  · rw [if_neg ht, if_neg ht, lookup_updateCounty,
      lookup_append_single acc item.county _ hnone]
    rfl

theorem process_page_existing (acc : List (String × CountyStructuredRecord)) (item : PageItem)
    (r : LLMResult) (hres : item.result = some r) (old : CountyStructuredRecord)
    (hsome : acc.lookup item.county = some old) :
    (process_page acc item).lookup item.county = some
      { old with
        programs := old.programs ++ r.programs.getD [],
        notes := if pyTruthy r.notes then pyStrip (old.notes ++ " " ++ r.notes.getD "")
                 else old.notes } := by
  unfold process_page
  rw [hres]
  simp only [hsome]
  by_cases ht : pyTruthy r.notes = true
  · rw [if_pos ht, if_pos ht, lookup_updateCounty, lookup_updateCounty, hsome]
    rfl
  · rw [if_neg ht, if_neg ht, lookup_updateCounty, hsome]
    rfl

/-- C2 (amended): the per-county accumulator is created on the first
successful structuring result with identity fields taken from that result
(`"Not found"` defaults) and never overwritten later; every subsequent
success appends its program list (no replacement, no deduplication — the
same page processed twice appends its programs twice) and merges its notes
as `strip(existing ++ " " ++ new)`, i.e. a single-space-separated append
followed by stripping leading/trailing whitespace. -/
theorem merge_semantics (acc : List (String × CountyStructuredRecord)) (item : PageItem)
    (r : LLMResult) (hres : item.result = some r) :
    (acc.lookup item.county = none →
      (process_page acc item).lookup item.county = some
        { county_name := item.county, state := STATE_NAME,
          county_website_url := item.county_url,
          health_department_name := r.health_department_name.getD "Not found",
          health_department_contact_email := r.health_department_contact_email.getD "Not found",
          health_department_contact_phone := r.health_department_contact_phone.getD "Not found",
          programs := r.programs.getD [],
          notes := if pyTruthy r.notes then pyStrip (" " ++ r.notes.getD "") else "" })
    ∧ (∀ old, acc.lookup item.county = some old →
      (process_page acc item).lookup item.county = some
        { old with
          programs := old.programs ++ r.programs.getD [],
          notes := if pyTruthy r.notes then pyStrip (old.notes ++ " " ++ r.notes.getD "")
                   else old.notes })
    ∧ (acc.lookup item.county = none →
      ((process_page (process_page acc item) item).lookup item.county).map
          CountyStructuredRecord.programs
        = some (r.programs.getD [] ++ r.programs.getD [])) := by
  refine ⟨process_page_new acc item r hres, process_page_existing acc item r hres, ?_⟩
  intro hnone
  have e1 := process_page_new acc item r hres hnone
  have e2 := process_page_existing (process_page acc item) item r hres _ e1
  rw [e2]
  rfl

/-- Witness for C2: one successful page for a fresh county creates the
accumulator with identity fields from the result and the stripped notes. -/
theorem merge_semantics_witness :
    (process_page [] ⟨"Alameda", "https://www.acgov.org/",
        some ⟨some "Alameda County HCSA", none, some "510-000-0000",
          some [⟨some "WIC", some "Maternal Health", none, none, none, none, none, none, none⟩],
          some "ok"⟩⟩).lookup "Alameda"
      = some { county_name := "Alameda", state := "California",
               county_website_url := "https://www.acgov.org/",
               health_department_name := "Alameda County HCSA",
               health_department_contact_email := "Not found",
               health_department_contact_phone := "510-000-0000",
               programs :=
                 [⟨some "WIC", some "Maternal Health", none, none, none, none, none, none, none⟩],
               notes := "ok" } := by
  have h := (merge_semantics []
    ⟨"Alameda", "https://www.acgov.org/",
        some ⟨some "Alameda County HCSA", none, some "510-000-0000",
          some [⟨some "WIC", some "Maternal Health", none, none, none, none, none, none, none⟩],
          some "ok"⟩⟩
    ⟨some "Alameda County HCSA", none, some "510-000-0000",
          some [⟨some "WIC", some "Maternal Health", none, none, none, none, none, none, none⟩],
          some "ok"⟩ rfl).1 rfl
  rw [h]
  decide

/-- Counterexample to C2 as stated: merging notes "b" into an accumulator
whose notes are still empty yields "b", not the plain single-space append
" b" — the code strips the concatenation's ends. -/
theorem merge_notes_not_plain_append :
    ((structure_pages
        [⟨"Alameda", "https://www.acgov.org/", some ⟨none, none, none, some [], none⟩⟩,
         ⟨"Alameda", "https://www.acgov.org/", some ⟨none, none, none, some [], some "b"⟩⟩]).lookup
        "Alameda").map CountyStructuredRecord.notes = some "b"
    ∧ ("b" : String) ≠ "" ++ " " ++ "b" := by
  refine ⟨by decide, by decide⟩

/-! ## CSV emission lemmas -/

theorem county_rows_identity (today collector : String) (c : CountyStructuredRecord) :
    ∀ row ∈ county_rows today collector c,
      row.State = c.state ∧ row.County_Name = c.county_name
      ∧ row.County_Website_URL = c.county_website_url
      ∧ row.Health_Department_Name = c.health_department_name
      ∧ row.Health_Department_Contact_Email = c.health_department_contact_email
      ∧ row.Health_Department_Contact_Phone = c.health_department_contact_phone := by
  intro row hrow
  unfold county_rows at hrow
  by_cases hemp : c.programs.isEmpty = true
  · rw [if_pos hemp, List.mem_singleton] at hrow
    subst hrow
    exact ⟨rfl, rfl, rfl, rfl, rfl, rfl⟩
  · rw [if_neg hemp] at hrow
    obtain ⟨p, _, rfl⟩ := List.mem_map.mp hrow
    exact ⟨rfl, rfl, rfl, rfl, rfl, rfl⟩

theorem county_rows_ne_nil (today collector : String) (c : CountyStructuredRecord) :
    county_rows today collector c ≠ [] := by
  unfold county_rows
  by_cases hemp : c.programs.isEmpty = true
  · rw [if_pos hemp]
    simp
  · rw [if_neg hemp]
    have hne : c.programs ≠ [] := by
      intro h
      exact hemp (by rw [h]; rfl)
    intro hmapnil
    exact hne (List.map_eq_nil_iff.mp hmapnil)

/-- C3: a county with an empty program list yields exactly one placeholder
row carrying the literal program name; a county with N programs yields
exactly N rows; all of a county's rows share its State, county and
department-identity column values; and every county record contributes at
least one row to the output of `save_to_csv`. -/
theorem save_to_csv_spec (today collector : String) (results : List CountyStructuredRecord)
    (c : CountyStructuredRecord) (hc : c ∈ results) :
    (c.programs = [] →
      ∃ row, county_rows today collector c = [row]
        ∧ row.Program_Name = "No programs found on main page"
        ∧ row.County_Name = c.county_name ∧ row.State = c.state)
    ∧ (county_rows today collector c).length = max c.programs.length 1
    ∧ (∀ row ∈ county_rows today collector c,
        row.State = c.state ∧ row.County_Name = c.county_name
        ∧ row.County_Website_URL = c.county_website_url
        ∧ row.Health_Department_Name = c.health_department_name
        ∧ row.Health_Department_Contact_Email = c.health_department_contact_email
        ∧ row.Health_Department_Contact_Phone = c.health_department_contact_phone)
    ∧ ∃ row ∈ save_to_csv_rows today collector results,
        row.County_Name = c.county_name := by
  refine ⟨?_, ?_, county_rows_identity today collector c, ?_⟩
  · intro hemp
    refine ⟨placeholder_row today collector c, ?_, rfl, rfl, rfl⟩
    unfold county_rows
    rw [if_pos (by rw [hemp]; rfl)]
  · rcases hcp : c.programs with _ | ⟨a, as⟩
    · unfold county_rows
      rw [hcp]
      simp
    · unfold county_rows
      rw [hcp]
      simp only [List.isEmpty_cons, Bool.false_eq_true, if_false, List.length_map,
        List.length_cons]
      rw [Nat.max_eq_left (by omega)]
  · obtain ⟨row, hrow⟩ :=
      List.exists_mem_of_ne_nil (county_rows today collector c)
        (county_rows_ne_nil today collector c)
    refine ⟨row, ?_, (county_rows_identity today collector c row hrow).2.1⟩
    unfold save_to_csv_rows
    rw [List.mem_flatten]
    exact ⟨county_rows today collector c, List.mem_map_of_mem _ hc, hrow⟩

/-- Witness for C3 at a county record with no programs. -/
theorem save_to_csv_spec_witness :
    ∃ row, county_rows "2026-10-12" "Collector"
        { county_name := "Alpine", state := "California", county_website_url := "",
          health_department_name := "Not found", health_department_contact_email := "Not found",
          health_department_contact_phone := "Not found", programs := [], notes := "" }
      = [row]
      ∧ row.Program_Name = "No programs found on main page"
      ∧ row.County_Name = "Alpine" ∧ row.State = "California" :=
  ((save_to_csv_spec "2026-10-12" "Collector"
      [{ county_name := "Alpine", state := "California", county_website_url := "",
         health_department_name := "Not found", health_department_contact_email := "Not found",
         health_department_contact_phone := "Not found", programs := [], notes := "" }]
      { county_name := "Alpine", state := "California", county_website_url := "",
        health_department_name := "Not found", health_department_contact_email := "Not found",
        health_department_contact_phone := "Not found", programs := [], notes := "" }
      (List.mem_singleton.mpr rfl)).1) rfl

/-! ## Raw-page persistence -/

/-- C6 (amended): the raw-page destination path is a deterministic
function of the county name, the guessed program name / link text, and
the page URL (through a short hash of at most 10 characters); any two
records agreeing on those fields are saved to the same path, whatever
else (text, contacts, timestamps) differs. -/
theorem save_raw_path_spec (sha1hex : String → String) (county : String)
    (r1 r2 : RawPageRecord) (hurl : r1.page_url = r2.page_url)
    (hname : r1.program_name_guess = r2.program_name_guess)
    (htext : r1.link_text = r2.link_text) :
    save_raw_path sha1hex county r1 = save_raw_path sha1hex county r2
    ∧ (page_hash sha1hex r1.page_url).length ≤ 10 := by
  constructor
  · unfold save_raw_path
    rw [hurl, hname, htext]
  · show ((sha1hex r1.page_url).data.take 10).length ≤ 10
    rw [List.length_take]
    omega

/-- Witness for C6 at two records sharing URL, name guess and link text
but differing in scraped text and contacts. -/
theorem save_raw_path_spec_witness :
    save_raw_path (fun _ => "0123456789abcdef0123456789abcdef01234567") "Alameda"
      ⟨"Alameda", "https://a.org/wic", "WIC", "WIC", "", "", "", [], [], []⟩
    = save_raw_path (fun _ => "0123456789abcdef0123456789abcdef01234567") "Alameda"
      ⟨"Alameda", "https://a.org/wic", "WIC", "WIC", "", "2026-01-01", "some text",
        ["555-123-4567"], [], []⟩
    ∧ (page_hash (fun _ => "0123456789abcdef0123456789abcdef01234567")
        "https://a.org/wic").length ≤ 10 :=
  save_raw_path_spec (fun _ => "0123456789abcdef0123456789abcdef01234567") "Alameda"
    ⟨"Alameda", "https://a.org/wic", "WIC", "WIC", "", "", "", [], [], []⟩
    ⟨"Alameda", "https://a.org/wic", "WIC", "WIC", "", "2026-01-01", "some text",
      ["555-123-4567"], [], []⟩ rfl rfl rfl

/-- Counterexample to C6 as stated: two records for the same county and
the same page URL but different link texts are saved to different paths,
so the path is not determined by the county and URL alone, and a rerun
whose discovery found different anchor text duplicates rather than
overwrites. -/
theorem save_raw_path_not_url_determined :
    (⟨"Alameda", "https://a.org/p", "WIC", "WIC", "", "", "", [], [], []⟩
        : RawPageRecord).page_url
      = (⟨"Alameda", "https://a.org/p", "Home Visiting", "Home Visiting", "", "", "", [], [], []⟩
        : RawPageRecord).page_url
    ∧ save_raw_path (fun _ => "0000000000") "Alameda"
        ⟨"Alameda", "https://a.org/p", "WIC", "WIC", "", "", "", [], [], []⟩
      ≠ save_raw_path (fun _ => "0000000000") "Alameda"
        ⟨"Alameda", "https://a.org/p", "Home Visiting", "Home Visiting", "", "", "", [], [], []⟩ := by
  refine ⟨rfl, by decide⟩
